import Mathlib

/-!
# Pin-It: verified model of the pinned-window registry and UI helpers

Shallow embedding of the Pin-It application (a Tauri "always on top" window
pinner).  The TypeScript front end (`src/App.tsx`, `src/types.ts`,
`src/commands.ts`) is embedded directly.  The Rust back end (registry,
reinforcement engine, restore matcher) is not part of the repository
snapshot, so those operations are modelled from the specification, as
flagged in each doc comment.
-/

namespace PinIt

/-! ## Front-end definitions (from `src/App.tsx`) -/

/-- The fixed 15-entry colour palette `AVATAR_COLORS` from `App.tsx`. -/
def AVATAR_COLORS : List String :=
  ["#e57373", "#f06292", "#ba68c8", "#9575cd", "#7986cb",
   "#64b5f6", "#4fc3f7", "#4dd0e1", "#4db6ac", "#81c784",
   "#aed581", "#ffd54f", "#ffb74d", "#ff8a65", "#a1887f"]

/-- JavaScript `ToInt32`: reduce an integer into the signed 32-bit range,
as performed on both operands of the `<<` operator. -/
def toInt32 (n : ℤ) : ℤ := (n + 2 ^ 31) % 2 ^ 32 - 2 ^ 31

/-- One iteration of the hash loop in `getAvatarColor`:
`hash = name.charCodeAt(i) + ((hash << 5) - hash)`.
`hash << 5` is `ToInt32(ToInt32(hash) * 32)` per JS semantics; the outer
addition and subtraction are exact (the values stay far below `2^53`). -/
def hashStep (h : ℤ) (c : ℕ) : ℤ := (c : ℤ) + (toInt32 (toInt32 h * 32) - h)

/-- The accumulated hash over the string's UTF-16 code units, starting at 0. -/
def getAvatarHash (name : List ℕ) : ℤ := name.foldl hashStep 0

/-- `Math.abs(hash) % AVATAR_COLORS.length` from `getAvatarColor`. -/
def avatarIndex (name : List ℕ) : ℕ :=
  (getAvatarHash name).natAbs % AVATAR_COLORS.length

/-- `getAvatarColor` from `App.tsx`.  The JS array access
`AVATAR_COLORS[i]` yields `undefined` when out of bounds, which we model
with `Option`: `none` plays the role of `undefined`. -/
def getAvatarColor (name : List ℕ) : Option String :=
  AVATAR_COLORS.get? (avatarIndex name)

/-- The toast record from `App.tsx` (`interface ToastData`). -/
structure ToastData where
  id : ℕ
  message : String
  pinned : Bool
deriving Repr, DecidableEq

/-- JavaScript `prev.slice(-2)`: the last `min 2 (length prev)` elements. -/
def jsSliceLast2 (l : List ToastData) : List ToastData := l.drop (l.length - 2)

/-- The state update performed by `addToast` in `App.tsx`:
`setToasts((prev) => [...prev.slice(-2), \x7b id, message, pinned \x7d])`. -/
def addToastToasts (prev : List ToastData) (t : ToastData) : List ToastData :=
  jsSliceLast2 prev ++ [t]

/-! ## Opacity scale conversions

`App.tsx` line 239 recomputes a percentage from the stored 0–255 alpha via
`Math.round((win.opacity / 255) * 100)`.  For a nonnegative rational `a/b`,
JS `Math.round (a/b) = ⌊a/b + 1/2⌋ = (2*a + b) / (2*b)` in integer
division, which is how both conversions are expressed on `ℕ` below. -/

/-- `Math.round((opacity / 255) * 100)` from `App.tsx`
(the percent recomputed by the UI from the stored alpha). -/
def alphaToPercent (o : ℕ) : ℕ := (200 * o + 255) / 510

/-- Modelled from the spec: the back end's percent-to-alpha conversion
`round(percent/100 * 255)` used by `set_opacity` (the Rust back end is not
in the repository snapshot). -/
def percentToAlpha (p : ℕ) : ℕ := (510 * p + 100) / 200

/-! ## Registry model

The Pinned Window Registry, Topmost Reinforcement Engine and Restore
Matcher live in the Rust back end, which is not in the repository snapshot
(only its TypeScript command bindings and the `PinnedWindow` mirror type
are).  They are modelled from the specification (§3, §4.2, §4.3, §4.5). -/

/-- A window identifier (`hwnd`), an opaque platform-native integer. -/
abbrev WindowId := ℕ

/-- The `PinnedWindow` record (`src/types.ts`, mirroring the Rust struct):
`hwnd`, `title`, `process_name`, `opacity : u8` (0–255),
`original_opacity : Option u8`. -/
structure PinnedWindow where
  hwnd : WindowId
  title : String
  process_name : String
  opacity : ℕ
  original_opacity : Option ℕ
deriving Repr, DecidableEq

/-- Modelled from the spec (§7): the error kinds of registry operations. -/
inductive PinError where
  | HandleInvalid
  | AlreadyPinned
  | NotPinned
  | OsCallFailed
deriving Repr, DecidableEq

/-- Modelled from the spec (§4.1): the Window Handle Abstraction as a pure
environment.  `valid id = false` means every OS query/apply on `id` fails
with `HandleInvalid`; otherwise `title`, `process` and `alpha` give the
values the OS queries return. -/
structure OsEnv where
  valid : WindowId → Bool
  title : WindowId → String
  process : WindowId → String
  alpha : WindowId → ℕ

/-- Modelled from the spec (§3): the Registry, a mapping
`WindowId → PinnedWindowRecord` kept in insertion order (`list()` returns
insertion order). -/
abbrev Registry := List PinnedWindow

/-- Look up the record for `id`, if any. -/
def lookup (reg : Registry) (id : WindowId) : Option PinnedWindow :=
  reg.find? (fun r => r.hwnd == id)

/-- Whether `id` is currently pinned (present in the registry). -/
def isPinned (reg : Registry) (id : WindowId) : Bool :=
  (lookup reg id).isSome

/-- Remove every record for `id` from the registry. -/
def removeId (reg : Registry) (id : WindowId) : Registry :=
  reg.filter (fun r => r.hwnd != id)

/-- Modelled from the spec (§4.2): `list()`, the pinned records in
insertion order. -/
def listPinned (reg : Registry) : List PinnedWindow := reg

/-- Modelled from the spec (§4.2): `pin(id)`.  Fails with `AlreadyPinned`
if present; fails with `HandleInvalid` (storing no record) if the OS
reports the handle invalid; otherwise queries title/process/current alpha,
applies topmost, and stores a record with
`original_opacity = opacity = current alpha` (pinning does not change
transparency).  Returns the resulting registry together with the typed
result. -/
def pin (env : OsEnv) (reg : Registry) (id : WindowId) :
    Registry × Except PinError PinnedWindow :=
  if isPinned reg id then (reg, .error .AlreadyPinned)
  else if env.valid id then
    let r : PinnedWindow :=
      { hwnd := id, title := env.title id, process_name := env.process id,
        opacity := env.alpha id, original_opacity := some (env.alpha id) }
    (reg ++ [r], .ok r)
  else (reg, .error .HandleInvalid)

/-- Modelled from the spec (§4.2): `unpin(id)`.  Fails with `NotPinned` if
absent; otherwise calls `set_topmost(id, false)` best-effort — a
`HandleInvalid` from that call (i.e. `env.valid id = false`) is treated as
success — and removes the record unconditionally. -/
def unpin (_env : OsEnv) (reg : Registry) (id : WindowId) :
    Registry × Except PinError Unit :=
  if isPinned reg id then (removeId reg id, .ok ())
  else (reg, .error .NotPinned)

/-- Modelled from the spec (§4.2): the clamp of the requested percent to
`[20, 100]` applied by `set_opacity` before conversion. -/
def clampPercent (p : ℕ) : ℕ := max 20 (min 100 p)

/-- Modelled from the spec (§4.2): `set_opacity(id, percent)`.  Fails with
`NotPinned` if absent; clamps the percent to `[20, 100]`, converts via
`percentToAlpha`, applies `set_alpha`; on success updates the record's
`opacity` and returns the resulting percent; on `HandleInvalid` removes
the record and surfaces the error. -/
def set_opacity (env : OsEnv) (reg : Registry) (id : WindowId) (percent : ℕ) :
    Registry × Except PinError ℕ :=
  if isPinned reg id then
    let pc := clampPercent percent
    let a := percentToAlpha pc
    if env.valid id then
      (reg.map (fun r => if r.hwnd == id then { r with opacity := a } else r), .ok pc)
    else (removeId reg id, .error .HandleInvalid)
  else (reg, .error .NotPinned)

/-- Modelled from the spec (§4.2): `remove_if_destroyed(id)` — removes the
record unconditionally and returns whether one was removed. -/
def remove_if_destroyed (reg : Registry) (id : WindowId) : Registry × Bool :=
  (removeId reg id, isPinned reg id)

/-- Modelled from the spec (§3): the registry's raw insertion, defined so
that inserting a duplicate id updates the existing record in place rather
than creating a second record. -/
def insertRecord (reg : Registry) (r : PinnedWindow) : Registry :=
  if isPinned reg r.hwnd then
    reg.map (fun x => if x.hwnd == r.hwnd then r else x)
  else reg ++ [r]

/-- The registry invariant: at most one record per `WindowId`, i.e. the
ids of the records are pairwise distinct. -/
def wfRegistry (reg : Registry) : Prop := (reg.map (·.hwnd)).Nodup

/-- Modelled from the spec (§4.3): the Topmost Reinforcement Engine's bulk
reassertion pass.  For every record in the registry, in order, re-assert
`set_topmost(id, true)`; a `HandleInvalid` failure is treated the same as
a destroy: the record is removed and a `window-destroyed` notification is
emitted, and the pass continues with the remaining ids.  Returns the new
registry, the ids topmost was re-applied to, and the ids for which a
`window-destroyed` notification fired. -/
def reinforce (env : OsEnv) : Registry → Registry × List WindowId × List WindowId
  | [] => ([], [], [])
  | r :: rest =>
    let (reg', applied, destroyed) := reinforce env rest
    if env.valid r.hwnd then (r :: reg', r.hwnd :: applied, destroyed)
    else (reg', applied, r.hwnd :: destroyed)

/-! ## Restore Matcher model -/

/-- Modelled from the spec (§4.5): one entry of the live top-level window
enumeration obtained at startup: id, title and process name. -/
structure LiveWindow where
  id : WindowId
  title : String
  process : String
deriving Repr, DecidableEq

/-- Modelled from the spec (§3): one persisted record of the snapshot —
`process_name`, `title` and opacity percent; no id, since ids do not
survive restart. -/
structure PersistedRecord where
  process_name : String
  title : String
  opacity : ℕ
deriving Repr, DecidableEq

/-- Character-wise lowercasing of a string (the lowercase comparison key
of spec §3), written over the character list so it evaluates. -/
def lowerStr (s : String) : String := ⟨s.data.map Char.toLower⟩

/-- Case-insensitive process-name match (spec §4.5: "process_name matches
exactly (case-insensitive)"). -/
def procMatch (w : LiveWindow) (p : PersistedRecord) : Bool :=
  lowerStr w.process == lowerStr p.process_name

/-- The live windows not already matched earlier in the pass. -/
def availableWins (live : List LiveWindow) (matched : List WindowId) :
    List LiveWindow :=
  live.filter (fun w => !matched.contains w.id)

/-- The exact-tier candidates: available live windows whose process name
matches case-insensitively and whose title matches exactly. -/
def exactCandidates (live : List LiveWindow) (matched : List WindowId)
    (p : PersistedRecord) : List LiveWindow :=
  (availableWins live matched).filter (fun w => procMatch w p && w.title == p.title)

/-- Modelled from the spec (§4.5): the Restore Matcher's per-record match.
Tier 1: if exactly one available live window matches process
(case-insensitive) and title exactly, match it.  Tier 2: if the exact-title
search yields zero candidates, fall back to the first available live window
(in enumeration order) matching the process name alone.  Otherwise the
record is unmatchable. -/
def matchRecord (live : List LiveWindow) (matched : List WindowId)
    (p : PersistedRecord) : Option WindowId :=
  match exactCandidates live matched p with
  | [w] => some w.id
  | [] => ((availableWins live matched).find? (fun w => procMatch w p)).map (·.id)
  | _ => none

/-- Modelled from the spec (§4.5): the Restore Matcher pass.  Per persisted
record in snapshot order: compute the match, excluding ids matched earlier
in the pass; on a match, `pin` the id and then `set_opacity` it to the
persisted percent (a pin failure is reported, not fatal); on no match, the
record is reported unmatched and the registry is left unchanged for that
record.  Returns the final registry and the unmatched records. -/
def restorePass (env : OsEnv) (live : List LiveWindow) :
    List PersistedRecord → List WindowId → Registry → Registry × List PersistedRecord
  | [], _, reg => (reg, [])
  | p :: rest, matched, reg =>
    match matchRecord live matched p with
    | some wid =>
      let reg1 := (pin env reg wid).1
      let reg2 := (set_opacity env reg1 wid p.opacity).1
      restorePass env live rest (wid :: matched) reg2
    | none =>
      let (regF, unmatched) := restorePass env live rest matched reg
      (regF, p :: unmatched)

/-! ## Concrete test data for the witnesses -/

/-- An OS environment in which every handle is invalid. -/
def envDead : OsEnv :=
  { valid := fun _ => false, title := fun _ => "", process := fun _ => "",
    alpha := fun _ => 255 }

/-- An OS environment in which every handle is valid, with alpha 200. -/
def envLive : OsEnv :=
  { valid := fun _ => true, title := fun _ => "Todo",
    process := fun _ => "notes.exe", alpha := fun _ => 200 }

/-- An OS environment in which exactly handle 3 is invalid. -/
def env3 : OsEnv :=
  { valid := fun i => i != 3, title := fun _ => "T",
    process := fun _ => "p.exe", alpha := fun _ => 255 }

/-- A concrete pinned record with handle 7. -/
def recA : PinnedWindow :=
  { hwnd := 7, title := "Todo", process_name := "notes.exe",
    opacity := 200, original_opacity := some 200 }

/-- A three-record registry with handles 1, 2, 3. -/
def reg3 : Registry :=
  [{ hwnd := 1, title := "a", process_name := "a.exe", opacity := 255,
     original_opacity := some 255 },
   { hwnd := 2, title := "b", process_name := "b.exe", opacity := 255,
     original_opacity := some 255 },
   { hwnd := 3, title := "c", process_name := "c.exe", opacity := 255,
     original_opacity := some 255 }]

/-- The spec's Restore Matcher exact-title scenario: two live notes.exe
windows, one with the persisted title. -/
def liveA : List LiveWindow :=
  [{ id := 7, title := "Todo", process := "notes.exe" },
   { id := 9, title := "Scratch", process := "notes.exe" }]

/-- The spec's Restore Matcher fallback scenario: one live notes.exe
window whose title changed. -/
def liveB : List LiveWindow :=
  [{ id := 9, title := "Renamed", process := "notes.exe" }]

/-- The persisted record of the spec's Restore Matcher scenarios. -/
def snapTodo : PersistedRecord :=
  { process_name := "notes.exe", title := "Todo", opacity := 80 }

end PinIt

namespace PinIt

/-! ## Theorems for the front-end claims -/

/-- Auxiliary: the avatar index is always within the palette's bounds. -/
theorem avatarIndex_lt (name : List ℕ) : avatarIndex name < AVATAR_COLORS.length :=
  Nat.mod_lt _ (by decide)

/-- C10: `getAvatarColor` is total and deterministic: for every string
(sequence of UTF-16 code units), the computed index is in bounds, so the
lookup yields a colour (never `undefined`) belonging to the fixed 15-entry
`AVATAR_COLORS` palette; equal inputs yield equal outputs. -/
theorem getAvatarColor_total :
    ∀ name : List ℕ,
      (∃ c, getAvatarColor name = some c ∧ c ∈ AVATAR_COLORS) ∧
      (∀ m : List ℕ, name = m → getAvatarColor name = getAvatarColor m) := by
  intro name
  refine ⟨⟨AVATAR_COLORS.get ⟨avatarIndex name, avatarIndex_lt name⟩, ?_, ?_⟩, ?_⟩
  · rw [getAvatarColor, List.get?_eq_get (avatarIndex_lt name)]
  · exact List.get_mem _ _ _
  · intro m h
    rw [h]

/-- C9: after every `addToast` state update the toast list holds at most 3
entries: the updater keeps only the last two existing toasts
(`prev.slice(-2)`) before appending the new one, whatever the previous
length was. -/
theorem addToast_length_le_three :
    ∀ (prev : List ToastData) (t : ToastData),
      (addToastToasts prev t).length ≤ 3 := by
  intro prev t
  simp only [addToastToasts, jsSliceLast2, List.length_append, List.length_drop,
    List.length_singleton]
  omega

/-- C7: the percent-to-alpha conversion `round(percent/100 * 255)` used by
`set_opacity` and the alpha-to-percent conversion `round(opacity/255 * 100)`
used by the UI round-trip exactly on every integer percent in `[20, 100]`,
so the percent the UI recomputes from the stored alpha agrees with the
percent that was set. -/
theorem opacity_percent_roundtrip (p : ℕ) (h1 : 20 ≤ p) (h2 : p ≤ 100) :
    alphaToPercent (percentToAlpha p) = p := by
  have key : ∀ q, q < 101 → 20 ≤ q → alphaToPercent (percentToAlpha q) = q := by decide
  exact key p (by omega) h1

/-- Witness for C7 at the concrete percent 80. -/
theorem opacity_percent_roundtrip_witness :
    20 ≤ 80 ∧ 80 ≤ 100 ∧ alphaToPercent (percentToAlpha 80) = 80 :=
  ⟨by decide, by decide, opacity_percent_roundtrip 80 (by decide) (by decide)⟩

/-! ## Theorems for the registry claims -/

/-- Auxiliary: a removed id is no longer pinned. -/
theorem isPinned_removeId (reg : Registry) (id : WindowId) :
    isPinned (removeId reg id) id = false := by
  have hfind : (removeId reg id).find? (fun r => r.hwnd == id) = none := by
    rw [List.find?_eq_none]
    intro x hx
    have hmem := (List.mem_filter.mp hx).2
    simpa using hmem
  simp [isPinned, lookup, hfind]

/-- C2: `set_opacity` clamps the requested percent to `[20, 100]` before
conversion and application, so a request of 5 stores exactly what a request
of 20 stores and a request of 150 stores exactly what a request of 100
stores, in every environment and registry. -/
theorem set_opacity_clamps (env : OsEnv) (reg : Registry) (id : WindowId) :
    (∀ p, 20 ≤ clampPercent p ∧ clampPercent p ≤ 100) ∧
    set_opacity env reg id 5 = set_opacity env reg id 20 ∧
    set_opacity env reg id 150 = set_opacity env reg id 100 := by
  refine ⟨fun p => ⟨le_max_left _ _, max_le (by norm_num) (min_le_left _ _)⟩, ?_, ?_⟩
  · rw [set_opacity, set_opacity, show clampPercent 5 = clampPercent 20 from by decide]
  · rw [set_opacity, set_opacity, show clampPercent 150 = clampPercent 100 from by decide]

/-- C5: `unpin(id)` fails with `NotPinned` when `id` is absent; when
present, the record is removed unconditionally and the call succeeds, and
the outcome is independent of the OS environment — in particular a
`HandleInvalid` from the best-effort `set_topmost(id, false)` call is
treated as success. -/
theorem unpin_spec (env env2 : OsEnv) (reg : Registry) (id : WindowId) :
    (isPinned reg id = false → unpin env reg id = (reg, .error .NotPinned)) ∧
    (isPinned reg id = true →
      (unpin env reg id).2 = .ok () ∧
      (unpin env reg id).1 = removeId reg id ∧
      isPinned (unpin env reg id).1 id = false) ∧
    unpin env reg id = unpin env2 reg id := by
  refine ⟨fun h => by simp [unpin, h], fun h => ?_, rfl⟩
  simp [unpin, h, isPinned_removeId]

/-- Witness for C5: unpinning the pinned handle 7 succeeds even though the
OS reports every handle invalid (best-effort `set_topmost`). -/
theorem unpin_spec_witness : (unpin envDead [recA] 7).2 = .ok () :=
  ((unpin_spec envDead envLive [recA] 7).2.1 (by rfl)).1

/-- C6: when `pin(id)` fails with `HandleInvalid`, no record is stored:
the registry after the failed pin equals the registry before it. -/
theorem pin_fail_no_partial_state (env : OsEnv) (reg : Registry) (id : WindowId)
    (h : (pin env reg id).2 = .error .HandleInvalid) :
    (pin env reg id).1 = reg := by
  rw [pin] at h ⊢
  split_ifs at h ⊢ with h1 h2
  all_goals rfl

/-- Witness for C6: pinning handle 7 in the all-invalid environment fails
with `HandleInvalid` and leaves the empty registry empty. -/
theorem pin_fail_no_partial_state_witness :
    (pin envDead ([] : Registry) 7).2 = .error .HandleInvalid ∧
    (pin envDead ([] : Registry) 7).1 = [] :=
  ⟨rfl, pin_fail_no_partial_state envDead [] 7 rfl⟩

/-- Auxiliary: an unpinned id does not occur among the registry's ids. -/
theorem not_mem_map_hwnd_of_not_pinned (reg : Registry) (id : WindowId)
    (h : isPinned reg id = false) : id ∉ reg.map (·.hwnd) := by
  intro hmem
  rcases List.mem_map.mp hmem with ⟨x, hx, hxe⟩
  rw [isPinned, lookup] at h
  cases hf : reg.find? (fun r => r.hwnd == id) with
  | some v => rw [hf] at h; simp at h
  | none =>
    have hne := List.find?_eq_none.mp hf x hx
    simp [hxe] at hne

/-- C1: for every id that is not currently pinned, a successful `pin(id)`
followed immediately by `list()` yields exactly one record for `id`, and
that record has `original_opacity = some opacity`, both fields equal to the
alpha observed at pin time. -/
theorem pin_then_list_exactly_one (env : OsEnv) (reg : Registry) (id : WindowId)
    (hnot : isPinned reg id = false) (hvalid : env.valid id = true) :
    (listPinned (pin env reg id).1).countP (fun r => r.hwnd == id) = 1 ∧
    ∀ r ∈ listPinned (pin env reg id).1, r.hwnd = id →
      r.original_opacity = some r.opacity ∧ r.opacity = env.alpha id := by
  have hpin : (pin env reg id).1 =
      reg ++ [{ hwnd := id, title := env.title id, process_name := env.process id,
                opacity := env.alpha id, original_opacity := some (env.alpha id) }] := by
    simp [pin, hnot, hvalid]
  have hzero : reg.countP (fun r => r.hwnd == id) = 0 := by
    have hmem := not_mem_map_hwnd_of_not_pinned reg id hnot
    have : (reg.map (·.hwnd)).countP (· == id) = 0 :=
      List.count_eq_zero.mpr hmem
    rw [List.countP_map] at this
    exact this
  constructor
  · rw [listPinned, hpin, List.countP_append, hzero]
    simp
  · rw [listPinned, hpin]
    intro r hr hid
    rcases List.mem_append.mp hr with hmem | hmem
    · exfalso
      exact not_mem_map_hwnd_of_not_pinned reg id hnot
        (List.mem_map.mpr ⟨r, hmem, hid⟩)
    · rw [List.mem_singleton.mp hmem]
      exact ⟨rfl, rfl⟩

/-- Witness for C1: pinning handle 7 into the empty registry in the
all-valid environment yields exactly one record for 7. -/
theorem pin_then_list_exactly_one_witness :
    (listPinned (pin envLive ([] : Registry) 7).1).countP (fun r => r.hwnd == 7) = 1 :=
  (pin_then_list_exactly_one envLive [] 7 rfl rfl).1

/-- Auxiliary: removing an id preserves the registry invariant. -/
theorem wfRegistry_removeId (reg : Registry) (id : WindowId)
    (h : wfRegistry reg) : wfRegistry (removeId reg id) := by
  rw [wfRegistry, removeId]
  exact ((List.filter_sublist reg).map _).nodup h

/-- Auxiliary: appending a record whose id is not yet pinned preserves the
registry invariant. -/
theorem wfRegistry_append_new (reg : Registry) (r0 : PinnedWindow)
    (h : wfRegistry reg) (hnot : isPinned reg r0.hwnd = false) :
    wfRegistry (reg ++ [r0]) := by
  rw [wfRegistry, List.map_append]
  rw [List.nodup_append]
  refine ⟨h, List.nodup_singleton _, ?_⟩
  intro a ha hb
  rw [List.mem_singleton.mp hb] at ha
  exact not_mem_map_hwnd_of_not_pinned reg r0.hwnd hnot ha

/-- Auxiliary: the opacity update of `set_opacity` does not change any
record's id. -/
theorem map_hwnd_update_opacity (reg : Registry) (id : WindowId) (a : ℕ) :
    (reg.map fun r => if r.hwnd == id then { r with opacity := a } else r).map (·.hwnd)
      = reg.map (·.hwnd) := by
  rw [List.map_map]
  have hfun : ((·.hwnd) ∘ fun r : PinnedWindow =>
      if r.hwnd == id then { r with opacity := a } else r) = (·.hwnd) := by
    funext r
    by_cases hc : r.hwnd = id <;> simp [hc]
  rw [hfun]

/-- Auxiliary: the in-place update of `insertRecord` does not change any
record's id. -/
theorem map_hwnd_update_record (reg : Registry) (r : PinnedWindow) :
    (reg.map fun x => if x.hwnd == r.hwnd then r else x).map (·.hwnd)
      = reg.map (·.hwnd) := by
  rw [List.map_map]
  have hfun : ((·.hwnd) ∘ fun x : PinnedWindow =>
      if x.hwnd == r.hwnd then r else x) = (·.hwnd) := by
    funext x
    by_cases hc : x.hwnd = r.hwnd <;> simp [hc]
  rw [hfun]

/-- C8: the registry invariant "at most one record per `WindowId`" is
preserved by `pin`, `unpin`, `set_opacity` and `remove_if_destroyed`;
inserting a duplicate id updates the existing record in place, keeping the
length unchanged; and under the invariant `list()` never contains two
records with the same id. -/
theorem registry_at_most_one_record (env : OsEnv) (reg : Registry)
    (id : WindowId) (p : ℕ) (r : PinnedWindow) (h : wfRegistry reg) :
    wfRegistry (pin env reg id).1 ∧
    wfRegistry (unpin env reg id).1 ∧
    wfRegistry (set_opacity env reg id p).1 ∧
    wfRegistry (remove_if_destroyed reg id).1 ∧
    wfRegistry (insertRecord reg r) ∧
    (isPinned reg r.hwnd = true → (insertRecord reg r).length = reg.length) ∧
    ∀ i : WindowId, (listPinned reg).countP (fun x => x.hwnd == i) ≤ 1 := by
  refine ⟨?_, ?_, ?_, ?_, ?_, ?_, ?_⟩
  · by_cases hp : isPinned reg id = true
    · simp [pin, hp, h]
    · have hp' : isPinned reg id = false := by simpa using hp
      by_cases hv : env.valid id = true
      · simpa [pin, hp', hv] using wfRegistry_append_new reg _ h hp'
      · have hv' : env.valid id = false := by simpa using hv
        simp [pin, hp', hv', h]
  · by_cases hp : isPinned reg id = true
    · simpa [unpin, hp] using wfRegistry_removeId reg id h
    · have hp' : isPinned reg id = false := by simpa using hp
      simp [unpin, hp', h]
  · by_cases hp : isPinned reg id = true
    · by_cases hv : env.valid id = true
      · rw [set_opacity]
        simp only [hp, if_true, hv]
        rw [wfRegistry, map_hwnd_update_opacity]
        exact h
      · have hv' : env.valid id = false := by simpa using hv
        simpa [set_opacity, hp, hv'] using wfRegistry_removeId reg id h
    · have hp' : isPinned reg id = false := by simpa using hp
      simp [set_opacity, hp', h]
  · simpa [remove_if_destroyed] using wfRegistry_removeId reg id h
  · by_cases hp : isPinned reg r.hwnd = true
    · rw [insertRecord]
      simp only [hp, if_true]
      rw [wfRegistry, map_hwnd_update_record]
      exact h
    · have hp' : isPinned reg r.hwnd = false := by simpa using hp
      simpa [insertRecord, hp'] using wfRegistry_append_new reg r h hp'
  · intro hp
    simp [insertRecord, hp]
  · intro i
    have hcount : (reg.map (·.hwnd)).count i ≤ 1 :=
      List.nodup_iff_count_le_one.mp h i
    rw [List.count, List.countP_map] at hcount
    exact hcount

/-- Witness for C8: pinning into the empty (trivially well-formed) registry
preserves the invariant. -/
theorem registry_at_most_one_record_witness :
    wfRegistry (pin envLive ([] : Registry) 7).1 :=
  (registry_at_most_one_record envLive [] 7 50 recA (by simp [wfRegistry])).1

/-- Auxiliary: closed form of the reinforcement pass — the surviving
registry is the valid records in order, topmost is re-applied to exactly
those, and a destroy notification fires for exactly the invalid ones. -/
theorem reinforce_eq (env : OsEnv) (reg : Registry) :
    reinforce env reg =
      (reg.filter (fun r => env.valid r.hwnd),
       (reg.filter (fun r => env.valid r.hwnd)).map (·.hwnd),
       (reg.filter (fun r => !env.valid r.hwnd)).map (·.hwnd)) := by
  induction reg with
  | nil => rfl
  | cons r rest ih =>
    by_cases hv : env.valid r.hwnd = true
    · simp [reinforce, ih, List.filter_cons, hv]
    · have hv' : env.valid r.hwnd = false := by simpa using hv
      simp [reinforce, ih, List.filter_cons, hv']

/-- Auxiliary: the two filters of a boolean predicate partition a list. -/
theorem length_filter_partition (l : List PinnedWindow) (p : PinnedWindow → Bool) :
    (l.filter p).length + (l.filter (fun a => !p a)).length = l.length := by
  induction l with
  | nil => rfl
  | cons a t ih =>
    by_cases h : p a = true
    · simp [List.filter_cons, h, ← ih]
      omega
    · have h' : p a = false := by simpa using h
      simp [List.filter_cons, h', ← ih]
      omega

/-- C3: a reinforcement pass over a registry in which exactly one record's
id is invalid removes exactly that record, emits exactly one
window-destroyed notification, and leaves every other record present with
topmost re-applied — the failure does not stop the pass for the rest. -/
theorem reinforce_single_invalid (env : OsEnv) (reg : Registry)
    (hone : (reg.filter (fun r => !env.valid r.hwnd)).length = 1) :
    (reinforce env reg).1.length + 1 = reg.length ∧
    (reinforce env reg).2.2.length = 1 ∧
    (∀ r ∈ reg, env.valid r.hwnd = false →
      r ∉ (reinforce env reg).1 ∧ r.hwnd ∈ (reinforce env reg).2.2) ∧
    (∀ r ∈ reg, env.valid r.hwnd = true →
      r ∈ (reinforce env reg).1 ∧ r.hwnd ∈ (reinforce env reg).2.1) := by
  rw [reinforce_eq]
  refine ⟨?_, ?_, ?_, ?_⟩
  · have hpart := length_filter_partition reg (fun r => env.valid r.hwnd)
    simp only [hone] at hpart
    simpa using hpart
  · simpa using hone
  · intro r hr hinv
    constructor
    · intro hmem
      have := (List.mem_filter.mp hmem).2
      rw [hinv] at this
      exact absurd this (by simp)
    · exact List.mem_map.mpr ⟨r, List.mem_filter.mpr ⟨hr, by simp [hinv]⟩, rfl⟩
  · intro r hr hval
    exact ⟨List.mem_filter.mpr ⟨hr, by simp [hval]⟩,
      List.mem_map.mpr ⟨r, List.mem_filter.mpr ⟨hr, by simp [hval]⟩, rfl⟩⟩

/-- Witness for C3: over the three-record registry in which exactly
handle 3 is invalid, the pass keeps two records and fires exactly one
destroy notification. -/
theorem reinforce_single_invalid_witness :
    (reinforce env3 reg3).1.length + 1 = reg3.length ∧
    (reinforce env3 reg3).2.2.length = 1 :=
  ⟨(reinforce_single_invalid env3 reg3 (by rfl)).1,
   (reinforce_single_invalid env3 reg3 (by rfl)).2.1⟩

/-- C4: the Restore Matcher evaluates its match tiers in priority order
over the live windows not already matched earlier in the pass: exactly one
exact process+title candidate matches it; zero exact candidates fall back
to the first process-only match in enumeration order; zero candidates in
both tiers report the record unmatched, and the pass leaves the registry
unchanged for that record. -/
theorem matchRecord_tiers (live : List LiveWindow) (matched : List WindowId)
    (p : PersistedRecord) :
    (∀ w, exactCandidates live matched p = [w] →
      matchRecord live matched p = some w.id) ∧
    (exactCandidates live matched p = [] →
      matchRecord live matched p =
        ((availableWins live matched).find? (fun w => procMatch w p)).map (·.id)) ∧
    (exactCandidates live matched p = [] →
      (availableWins live matched).find? (fun w => procMatch w p) = none →
      matchRecord live matched p = none) ∧
    (∀ env reg rest, matchRecord live matched p = none →
      restorePass env live (p :: rest) matched reg =
        ((restorePass env live rest matched reg).1,
         p :: (restorePass env live rest matched reg).2)) := by
  refine ⟨?_, ?_, ?_, ?_⟩
  · intro w hw
    rw [matchRecord, hw]
  · intro hz
    rw [matchRecord, hz]
  · intro hz hfind
    rw [matchRecord, hz, hfind]
    rfl
  · intro env reg rest hnone
    rw [restorePass, hnone]

/-- Witness for C4: the spec's two Restore Matcher scenarios — the exact
tier matches live id 7 (title "Todo"), and with only a renamed notes.exe
window the process-only fallback matches live id 9. -/
theorem matchRecord_tiers_witness :
    matchRecord liveA [] snapTodo = some 7 ∧
    matchRecord liveB [] snapTodo = some 9 := by
  constructor
  · have h := (matchRecord_tiers liveA [] snapTodo).1
      { id := 7, title := "Todo", process := "notes.exe" } (by decide)
    exact h
  · have h := (matchRecord_tiers liveB [] snapTodo).2.1 (by decide)
    rw [h]
    decide

end PinIt
